import Mathlib

/-!
Shallow embedding of the Spark v2 content-processing and semantic-linking
pipeline (`src/models.py`, `src/spark_core.py`).

External collaborators (the generation service, the embedding service, the
transcript library, the audio downloader/uploader, and the `json.loads`
library routine) are modelled as an explicit environment `Env` of
deterministic oracle functions.  `process_block` additionally records a
chronological trace of the external calls it makes, so that properties such
as "exactly N generation requests are issued" or "no embedding is requested"
become statable.  Machine floats are modelled as rationals.
-/

/-- JSON values: the possible results of a successful `json.loads`.
Python's `json.loads` can hand back any of these shapes, and
`spark_core.py` stores the result straight into `block.ai_tags`. -/
inductive Json where
  | null : Json
  | bool (b : Bool) : Json
  | num (q : ℚ) : Json
  | str (s : String) : Json
  | arr (elems : List Json) : Json
  | obj (fields : List (String × Json)) : Json

/-- A metadata value (Python dict values in `SmartBlock.metadata`). -/
inductive MetaVal where
  | str (s : String) : MetaVal
  | num (q : ℚ) : MetaVal

/-- The `SmartBlock` record of `src/models.py`.  `id` and `created_at` are
assigned at creation (uuid4 / now); both are opaque to the pipeline. -/
structure SmartBlock where
  id : String
  created_at : Nat
  source_type : String
  raw_content : String
  metadata : List (String × MetaVal)
  processed_content : Option String
  ai_tags : Json
  user_tags : List String
  embedding : List ℚ

/-- `SmartBlock.__init__`: the caller supplies source type, raw content and
metadata; the derived fields start out empty (`id`/`created_at` stand for
the uuid4 and timestamp effects). -/
def createBlock (id : String) (created_at : Nat) (source_type : String)
    (raw_content : String) (metadata : List (String × MetaVal)) : SmartBlock :=
  { id := id, created_at := created_at, source_type := source_type,
    raw_content := raw_content, metadata := metadata,
    processed_content := none, ai_tags := Json.arr [], user_tags := [],
    embedding := [] }

/-- One transcript segment as returned by `YouTubeTranscriptApi.get_transcript`:
a text and a start offset (seconds). -/
structure Segment where
  text : String
  start : ℚ

/-- Outcome of the `yt_dlp` download attempt inside
`_download_youtube_audio`: the mp3 file was found, the download reported
success but the file was missing, or an exception was raised. -/
inductive DlOutcome where
  | found (path : String) : DlOutcome
  | missing : DlOutcome
  | exc (e : String) : DlOutcome

/-- The external world `spark_core.py` talks to.  Each field is one
collaborator call, modelled as a deterministic function.  The three prompt
templates live in a `prompts` module that is not part of `src/`; they are
modelled from the spec: each template is an opaque string with a single
interpolation slot, hence a function from the interpolated text to the
final prompt. -/
structure Env where
  hasTranscriptApi : Bool
  hasYtDlp : Bool
  generate : String → Option String → Except String String
  getTranscript : String → Except String (List Segment)
  ytDownload : String → DlOutcome
  uploadPath : String → Option String
  uploadBytes : String → Option String
  embed : String → Except String (List ℚ)
  jsonLoads : String → Option Json
  VIDEO_PROCESS_PROMPT : String → String
  CHAT_PROCESS_PROMPT : String → String
  TAGGING_PROMPT : String → String

/-- One recorded external call of a `process_block` run. -/
inductive Eff where
  | llm (prompt : String) (audio : Option String) : Eff
  | embedCall (text : String) : Eff
  | transcript (url : String) : Eff
  | download (url : String) : Eff
  | upload : Eff

/-- Does the character list start with the given pattern? -/
def startsWithChars : List Char → List Char → Bool
  | [], _ => true
  | _ :: _, [] => false
  | a :: p, b :: l => (a == b) && startsWithChars p l

/-- Does the character list contain the pattern as a contiguous run? -/
def charsContain (p : List Char) : List Char → Bool
  | [] => startsWithChars p []
  | b :: l => startsWithChars p (b :: l) || charsContain p l

/-- Python's substring test `needle in hay` (for the nonempty needles used
in `spark_core.py`).  Implemented structurally on the character lists so
that concrete runs evaluate inside the kernel. -/
def containsSub (hay needle : String) : Bool :=
  charsContain needle.data hay.data

/-- Python's `str.split(sep)` for a nonempty `sep`, on character lists;
the fuel argument (instantiated with the haystack length) only makes the
recursion structural. -/
def pySplitAux (sep : List Char) : Nat → List Char → List Char → List (List Char)
  | _, [], acc => [acc.reverse]
  | 0, rest, acc => [acc.reverse ++ rest]
  | fuel + 1, b :: l, acc =>
      if startsWithChars sep (b :: l) then
        acc.reverse :: pySplitAux sep fuel ((b :: l).drop sep.length) []
      else
        pySplitAux sep fuel l (b :: acc)

/-- Python's `str.split(sep)`.  `spark_core.py` only ever splits on the
nonempty separators "v=", "&", "youtu.be/" and "?". -/
def pySplit (hay sep : String) : List String :=
  if sep == "" then [hay]
  else (pySplitAux sep.data hay.data.length hay.data []).map String.mk

/-- Python's `str.replace(old, new)` for a nonempty `old`, fuelled like
`pySplitAux`. -/
def pyReplaceAux (old new : List Char) : Nat → List Char → List Char
  | _, [] => []
  | 0, rest => rest
  | fuel + 1, b :: l =>
      if startsWithChars old (b :: l) then
        new ++ pyReplaceAux old new fuel ((b :: l).drop old.length)
      else
        b :: pyReplaceAux old new fuel l

/-- Python's `str.replace(old, new)`.  `spark_core.py` only replaces the
nonempty code-fence markers. -/
def pyReplace (s old new : String) : String :=
  if old == "" then s
  else String.mk (pyReplaceAux old.data new.data s.data.length s.data)

/-- Python's `str.strip()`: drop leading and trailing whitespace. -/
def pyStrip (s : String) : String :=
  String.mk (((s.data.dropWhile Char.isWhitespace).reverse.dropWhile
    Char.isWhitespace).reverse)

/-- Python's `s[:n]` character-count truncation. -/
def pyTake (s : String) (n : Nat) : String :=
  String.mk (s.data.take n)

/-- Python's `sep.join(parts)`. -/
def pyJoin (sep : String) : List String → String
  | [] => ""
  | [x] => x
  | x :: xs => x ++ sep ++ pyJoin sep xs

/-- `SparkEngine._call_llm`: forward to the generation service and turn any
exception into the string `"Error processing AI: <e>"`. -/
def callLLM (env : Env) (prompt : String) (audio_file : Option String) : String :=
  match env.generate prompt audio_file with
  | Except.ok t => t
  | Except.error e => "Error processing AI: " ++ e

/-- `SparkEngine._get_embedding`: truncate to 9000 characters, call the
embedding service, and return `[]` on any exception. -/
def getEmbedding (env : Env) (text : String) : List ℚ :=
  match env.embed (pyTake text 9000) with
  | Except.ok v => v
  | Except.error _ => []

/-- The video-id extraction of `_get_youtube_transcript`: Python's
`url.split("v=")[1].split("&")[0]` / `url.split("youtu.be/")[1].split("?")[0]`
chains, with `""` standing for Python's falsy `None`. -/
def parsedVideoId (url : String) : String :=
  if containsSub url "v=" then
    (pySplit ((pySplit url "v=").getD 1 "") "&").getD 0 ""
  else if containsSub url "youtu.be/" then
    (pySplit ((pySplit url "youtu.be/").getD 1 "") "?").getD 0 ""
  else ""

/-- `SparkEngine._get_youtube_transcript`: parse the video id out of the
URL, fetch the transcript, and join the text of every segment with single
spaces behind the provenance prefix.  Returns `(transcript_text, error)`. -/
def getYoutubeTranscript (env : Env) (url : String) : Option String × Option String :=
  if !env.hasTranscriptApi then (none, some "❌ 未安装 transcript 库")
  else
    let video_id : String := parsedVideoId url
    if video_id = "" then (none, some "无法解析 Video ID")
    else
      match env.getTranscript video_id with
      | Except.ok transcript_list =>
          (some ("[自动抓取的字幕] " ++
            pyJoin " " (transcript_list.map Segment.text)), none)
      | Except.error e => (none, some e)

/-- `SparkEngine._download_youtube_audio`: returns `(mp3_path, error)`. -/
def downloadYoutubeAudio (env : Env) (url : String) : Option String × Option String :=
  if !env.hasYtDlp then (none, some "❌ 未安装 yt-dlp 库")
  else
    match env.ytDownload url with
    | DlOutcome.found p => (some p, none)
    | DlOutcome.missing => (none, some "❌ 下载显示完成，但在文件夹里找不到文件")
    | DlOutcome.exc e => (none, some ("❌ 音频下载失败: " ++ e))

/-- `SparkEngine._upload_audio`: a file path (`Sum.inl`) or a byte blob
(`Sum.inr`); `none` models the `except` branch returning `None`. -/
def uploadAudio (env : Env) (file_path_or_bytes : String ⊕ String) : Option String :=
  match file_path_or_bytes with
  | Sum.inl path => env.uploadPath path
  | Sum.inr bytes => env.uploadBytes bytes

/-- The tag-parse-error sentinel `["#AI_Tag_Error"]`. -/
def tagErrorSentinel : Json := Json.arr [Json.str "#AI_Tag_Error"]

/-- Result of one `process_block` run: the mutated block, the resulting
corpus (`self.database`), and the trace of external calls. -/
structure PBOut where
  block : SmartBlock
  database : List SmartBlock
  trace : List Eff

/-- The `=== 准备 Prompt ===` block of `process_block`: template selection
keyed on `source_type` (with the audio-dictation prompt when an audio
resource is present) and interpolation of the resolved text. -/
def assemblePrompt (env : Env) (block : SmartBlock)
    (audio_resource : Option String) (prompt_text : String) : String :=
  if block.source_type = "video_snippet" then
    match audio_resource with
    | none => env.VIDEO_PROCESS_PROMPT prompt_text
    | some _ => "请认真听这段音频，整理出详细的笔记。忽略口语废话，保留核心观点，按 Markdown 格式输出。"
  else if block.source_type = "chat_log" then
    env.CHAT_PROCESS_PROMPT prompt_text
  else
    prompt_text

/-- The second half of `SparkEngine.process_block`, from the `=== 准备
Prompt ===` comment on: prompt assembly, the generation call, the
`status_msg`-prefixed store into `processed_content`, and the
tagging / embedding / append post-processing guarded by the
`"Error" not in processed_content` check. -/
def processRest (env : Env) (db : List SmartBlock) (block : SmartBlock)
    (audio_resource : Option String) (prompt_text : String)
    (status_msg : String) (trace : List Eff) : PBOut :=
  let final_prompt := assemblePrompt env block audio_resource prompt_text
  let result := callLLM env final_prompt audio_resource
  let trace := trace ++ [Eff.llm final_prompt audio_resource]
  let pc := status_msg ++ "\n\n" ++ result
  let block := { block with processed_content := some pc }
  if pc ≠ "" ∧ containsSub pc "Error" = false then
    let tag_prompt := env.TAGGING_PROMPT pc
    let tags_raw := callLLM env tag_prompt none
    let trace := trace ++ [Eff.llm tag_prompt none]
    let clean_json := pyStrip (pyReplace (pyReplace tags_raw "```json" "") "```" "")
    let block :=
      match env.jsonLoads clean_json with
      | some j => { block with ai_tags := j }
      | none => { block with ai_tags := tagErrorSentinel }
    let block := { block with embedding := getEmbedding env pc }
    { block := block, database := db ++ [block],
      trace := trace ++ [Eff.embedCall pc] }
  else
    { block := block, database := db, trace := trace }

/-- Plan B of `process_block`: the transcript came back falsy, so store the
placeholder `processed_content`, download the audio and upload it to the
generation service, with the two early-return failure branches; on success
continue into `processRest` with the Plan-B status marker. -/
def planB (env : Env) (db : List SmartBlock) (block : SmartBlock)
    (trace0 : List Eff) : PBOut :=
  let placeholder : String := "⚠️ 正在下载视频音频，这可能需要 1-2 分钟，请耐心等待..."
  let block1 := { block with processed_content := some placeholder }
  let dl := downloadYoutubeAudio env block.raw_content
  let trace1 := trace0 ++ [Eff.download block.raw_content]
  match dl.1 with
  | some mp3_path =>
      match uploadAudio env (Sum.inl mp3_path) with
      | none =>
          { block := { block1 with processed_content := some "❌ 下载成功但上传 AI 失败" },
            database := db, trace := trace1 ++ [Eff.upload] }
      | some a =>
          processRest env db block1 (some a) block1.raw_content
            "(基于AI听写 - Plan B)" (trace1 ++ [Eff.upload])
  | none =>
      let msg : String := "❌ 字幕抓取失败，且音频下载也失败: " ++ (dl.2.getD "")
      { block := { block1 with processed_content := some msg },
        database := db, trace := trace1 }

/-- `SparkEngine.process_block`: the input-resolution phase (user audio
upload, else the YouTube Plan A / Plan B fallback chain), with its early
returns, feeding into `processRest`. -/
def process_block (env : Env) (db : List SmartBlock) (block : SmartBlock)
    (file_bytes : Option String) : PBOut :=
  match file_bytes with
  | some fb =>
      match uploadAudio env (Sum.inr fb) with
      | none =>
          { block := { block with processed_content := some "❌ 用户音频上传失败" },
            database := db, trace := [Eff.upload] }
      | some a => processRest env db block (some a) block.raw_content "" [Eff.upload]
  | none =>
      if block.source_type = "video_snippet" ∧
          (containsSub block.raw_content "youtube.com" = true ∨
           containsSub block.raw_content "youtu.be" = true) then
        let tr := getYoutubeTranscript env block.raw_content
        let trace0 := [Eff.transcript block.raw_content]
        match tr.1 with
        | some transcript_text =>
            if transcript_text ≠ "" then
              processRest env db block none transcript_text "(基于CC字幕)" trace0
            else
              planB env db block trace0
        | none => planB env db block trace0
      else
        processRest env db block none block.raw_content "" []

/-- The candidate filter of `find_related`'s two comprehensions: every
corpus block other than the target itself (by id) that has a nonempty
embedding. -/
def candOk (target_block : SmartBlock) (b : SmartBlock) : Bool :=
  (b.id != target_block.id) && !b.embedding.isEmpty

/-- Comparison used to model `numpy.argsort` on the similarity array:
order index/value pairs by value. -/
def simLe (p q : Nat × ℚ) : Prop := p.2 ≤ q.2

instance : DecidableRel simLe := fun p q => inferInstanceAs (Decidable (p.2 ≤ q.2))

instance : IsTotal (Nat × ℚ) simLe := ⟨fun a b => le_total a.2 b.2⟩

instance : IsTrans (Nat × ℚ) simLe := ⟨fun _ _ _ h h' => le_trans h h'⟩

/-- `similarities.argsort()`: the indices of the array, ordered by
ascending value.  numpy's default sort (`kind='quicksort'`, an introsort)
guarantees nothing about the relative order of equal values in general; it
degenerates to a genuinely stable insertion sort only for small arrays (at
most 16 elements, numpy's `SMALL_QUICKSORT` regime).  The model uses a
stable insertion sort, so only statements carrying an explicit smallness
hypothesis may rely on the order of equal values; the other ranking
properties proved below are independent of tie order. -/
def argsort (xs : List ℚ) : List Nat :=
  (List.insertionSort simLe xs.enum).map Prod.fst

/-- The Python slice `l[-k:]` for a nonnegative `k`: the last `k` elements,
except that `l[-0:]` is the whole list. -/
def sliceLastPy {α : Type} (l : List α) (k : Nat) : List α :=
  if k = 0 then l else l.drop (l.length - k)

/-- The similarity cutoff `0.3` of `find_related` (exact rational 3/10). -/
def simThreshold : ℚ := mkRat 3 10

/-- Default used for the (never-failing) list indexing `db_blocks[idx]`. -/
def dfltBlock : SmartBlock :=
  { id := "", created_at := 0, source_type := "", raw_content := "",
    metadata := [], processed_content := none, ai_tags := Json.arr [],
    user_tags := [], embedding := [] }

/-- `SparkEngine.find_related`: guard on empty target embedding / empty
corpus, filter out the target and embedding-less blocks, score each
candidate, take `argsort()[-top_k:][::-1]`, then keep the scores above the
0.3 threshold.  `sklearn`'s floating-point `cosine_similarity` is a library
collaborator and is abstracted as the parameter `sim` (none of the ranking
logic depends on its values). -/
def find_related (sim : List ℚ → List ℚ → ℚ) (database : List SmartBlock)
    (target_block : SmartBlock) (top_k : Nat) : List (SmartBlock × ℚ) :=
  if target_block.embedding.isEmpty || database.isEmpty then []
  else
    let db_embeddings := (database.filter (candOk target_block)).map SmartBlock.embedding
    let db_blocks := database.filter (candOk target_block)
    if db_embeddings.isEmpty then []
    else
      let similarities := db_embeddings.map (fun e => sim target_block.embedding e)
      let top_indices := (sliceLastPy (argsort similarities) top_k).reverse
      top_indices.filterMap (fun idx =>
        let score := similarities.getD idx 0
        if simThreshold < score then some (db_blocks.getD idx dfltBlock, score)
        else none)

/-- Is this trace entry a generation request? -/
def isLlmCall : Eff → Bool
  | Eff.llm _ _ => true
  | _ => false

/-- Is this trace entry an embedding request? -/
def isEmbedCall : Eff → Bool
  | Eff.embedCall _ => true
  | _ => false

/-- The string `process_block` stores into `processed_content` when it
reaches the generation step: status marker, blank line, generation
response. -/
def storedContent (env : Env) (block : SmartBlock) (audio_resource : Option String)
    (prompt_text status_msg : String) : String :=
  status_msg ++ "\n\n" ++ callLLM env (assemblePrompt env block audio_resource prompt_text) audio_resource

/-- The tag response after stripping code fences, as fed to `json.loads`. -/
def cleanedTagResponse (env : Env) (pc : String) : String :=
  pyStrip (pyReplace (pyReplace (callLLM env (env.TAGGING_PROMPT pc) none) "```json" "") "```" "")

/-- What `ai_tags` becomes on the success path: the parsed JSON when
`json.loads` succeeds (whatever its shape), else the sentinel. -/
def tagsFor (env : Env) (pc : String) : Json :=
  match env.jsonLoads (cleanedTagResponse env pc) with
  | some j => j
  | none => tagErrorSentinel

/-- The block as committed on the success path of `process_block`. -/
def successBlock (env : Env) (block : SmartBlock) (pc : String) : SmartBlock :=
  { block with
    processed_content := some pc,
    ai_tags := tagsFor env pc,
    embedding := getEmbedding env pc }

/-- The pipeline-immutable fields agree between two blocks. -/
def frameEq (a b : SmartBlock) : Prop :=
  a.id = b.id ∧ a.created_at = b.created_at ∧ a.source_type = b.source_type ∧
  a.raw_content = b.raw_content ∧ a.metadata = b.metadata ∧ a.user_tags = b.user_tags

/-- The `top_k` best scores (descending) of a similarity array, i.e. the
scores at `argsort()[-top_k:][::-1]`. -/
def topKScores (sims : List ℚ) (k : Nat) : List ℚ :=
  ((sliceLastPy (List.insertionSort simLe sims.enum) k).reverse).map Prod.snd

/-- The similarity array `find_related` computes: one score per candidate,
in corpus order. -/
def simsOf (sim : List ℚ → List ℚ → ℚ) (database : List SmartBlock)
    (target_block : SmartBlock) : List ℚ :=
  ((database.filter (candOk target_block)).map SmartBlock.embedding).map
    (fun e => sim target_block.embedding e)

/-- A concrete test environment: the transcript library and `yt_dlp` are
installed but fail, uploads fail, generation answers "A note" to every
prompt, the embedding service raises, `json.loads` raises on every input
(faithful to `json.loads "A note"`), and the templates are the identity
interpolation. -/
def envBase : Env :=
  { hasTranscriptApi := true, hasYtDlp := true,
    generate := fun _ _ => Except.ok "A note",
    getTranscript := fun _ => Except.error "no captions available",
    ytDownload := fun _ => DlOutcome.exc "network down",
    uploadPath := fun _ => none,
    uploadBytes := fun _ => none,
    embed := fun _ => Except.error "quota exceeded",
    jsonLoads := fun _ => none,
    VIDEO_PROCESS_PROMPT := fun t => t,
    CHAT_PROCESS_PROMPT := fun t => t,
    TAGGING_PROMPT := fun t => t }

/-- `envBase` with a succeeding embedding service. -/
def envOk : Env := { envBase with embed := fun _ => Except.ok [1, 0] }

/-- `envBase` with a generation response that legitimately contains the
substring "Error" in its note text. -/
def envErr : Env :=
  { envBase with generate := fun _ _ => Except.ok "How I fixed an Error in my parser code" }

/-- `envBase` where generation answers "42"; `json.loads "42"` succeeds
with the JSON number 42 (not an array of strings), exactly as Python's
`json.loads` does. -/
def envC6 : Env :=
  { envBase with
    generate := fun _ _ => Except.ok "42",
    jsonLoads := fun s => if s = "42" then some (Json.num 42) else none }

/-- A pasted-text block (pass-through prompt path). -/
def articleBlock : SmartBlock :=
  createBlock "b1" 0 "article_highlight" "hello world" []

/-- A YouTube video block. -/
def videoBlock : SmartBlock :=
  createBlock "v1" 0 "video_snippet" "https://youtu.be/abc"
    [("url", MetaVal.str "https://youtu.be/abc")]

/-- The index/score pairs at `argsort()[-top_k:][::-1]`. -/
def topPairs (sims : List ℚ) (k : Nat) : List (Nat × ℚ) :=
  (sliceLastPy (List.insertionSort simLe sims.enum) k).reverse

/-- The index list `argsort()[-top_k:][::-1]` that `find_related`'s result
loop iterates. -/
def topIndices (sims : List ℚ) (k : Nat) : List Nat :=
  (sliceLastPy (argsort sims) k).reverse

/-- The order a stable ascending sort of `(index, score)` pairs produces:
strictly smaller score, or equal scores and smaller (earlier) index. -/
def rankBefore (p q : Nat × ℚ) : Prop :=
  p.2 < q.2 ∨ (p.2 = q.2 ∧ p.1 < q.1)

/-- A constant similarity function: every candidate ties at score 1. -/
def simOne : List ℚ → List ℚ → ℚ := fun _ _ => 1

/-- A linking target with a computed embedding. -/
def blockT : SmartBlock :=
  { createBlock "T" 0 "chat_log" "t" [] with embedding := [1] }

/-- First corpus candidate (inserted first). -/
def blockA : SmartBlock :=
  { createBlock "A" 0 "chat_log" "a" [] with embedding := [1] }

/-- Second corpus candidate (inserted second). -/
def blockB : SmartBlock :=
  { createBlock "B" 0 "chat_log" "b" [] with embedding := [1] }

/-- A target block whose embedding request failed (empty embedding). -/
def emptyTarget : SmartBlock := createBlock "E" 0 "chat_log" "e" []

/-- Two transcript segments, one starting at offset 0 (before any
plausible start bound) and one at 400. -/
def segsC7 : List Segment :=
  [{ text := "SEG_EARLY", start := 0 }, { text := "SEG_LATE", start := 400 }]

/-- Environment whose transcript service returns `segsC7`. -/
def envC7 : Env :=
  { envBase with getTranscript := fun _ => Except.ok segsC7 }

/-- A YouTube block whose metadata carries start_min/end_min bounds. -/
def blockC7 : SmartBlock :=
  createBlock "v2" 0 "video_snippet" "https://youtu.be/zzz"
    [("url", MetaVal.str "https://youtu.be/zzz"),
     ("start_min", MetaVal.num 5), ("end_min", MetaVal.num 6)]

lemma frameEq_refl (a : SmartBlock) : frameEq a a :=
  ⟨rfl, rfl, rfl, rfl, rfl, rfl⟩

lemma storedContent_ne_empty (env : Env) (block : SmartBlock)
    (audio : Option String) (ptext status : String) :
    storedContent env block audio ptext status ≠ "" := by
  intro h
  have hlen := congrArg String.length h
  simp only [storedContent, String.length_append] at hlen
  rw [show ("\n\n" : String).length = 2 from rfl,
    show ("" : String).length = 0 from rfl] at hlen
  omega

lemma self_ne_append_singleton {α : Type} (l : List α) (x : α) :
    ¬ l = l ++ [x] := by
  intro h
  have := congrArg List.length h
  simp at this

/-- Case analysis on `processRest`: either the `"Error" not in
processed_content` check passes and the run commits (tagging request,
embedding request, append), or it fails and the run stops after the single
generation request. -/
lemma processRest_cases (env : Env) (db : List SmartBlock) (block : SmartBlock)
    (audio : Option String) (ptext status : String) (tr : List Eff) :
    (containsSub (storedContent env block audio ptext status) "Error" = false ∧
      processRest env db block audio ptext status tr =
        { block := successBlock env block (storedContent env block audio ptext status),
          database := db ++ [successBlock env block (storedContent env block audio ptext status)],
          trace := tr ++ [Eff.llm (assemblePrompt env block audio ptext) audio,
            Eff.llm (env.TAGGING_PROMPT (storedContent env block audio ptext status)) none,
            Eff.embedCall (storedContent env block audio ptext status)] }) ∨
    (containsSub (storedContent env block audio ptext status) "Error" = true ∧
      processRest env db block audio ptext status tr =
        { block := { block with
            processed_content := some (storedContent env block audio ptext status) },
          database := db,
          trace := tr ++ [Eff.llm (assemblePrompt env block audio ptext) audio] }) := by
  have hne := storedContent_ne_empty env block audio ptext status
  by_cases hc : containsSub (storedContent env block audio ptext status) "Error" = true
  · right
    refine ⟨hc, ?_⟩
    rw [processRest, if_neg]
    · rfl
    · intro hcontra
      simp only [storedContent] at hc
      rw [hc] at hcontra
      exact absurd hcontra.2 (by simp)
  · left
    have hc' : containsSub (storedContent env block audio ptext status) "Error" = false :=
      Bool.not_eq_true _ ▸ Bool.of_not_eq_true hc
    refine ⟨hc', ?_⟩
    rw [processRest, if_pos ⟨hne, hc'⟩]
    simp only [successBlock, tagsFor, cleanedTagResponse, storedContent]
    cases hj : env.jsonLoads (pyStrip (pyReplace (pyReplace (callLLM env
        (env.TAGGING_PROMPT (status ++ "\n\n" ++
          callLLM env (assemblePrompt env block audio ptext) audio)) none)
        "```json" "") "```" "")) with
    | none => simp [List.append_assoc]
    | some j => simp [List.append_assoc]

/-- Branch analysis of `planB`: it either reaches the generation step via
`processRest` or early-returns with the corpus unchanged. -/
lemma planB_master (env : Env) (db : List SmartBlock) (block : SmartBlock)
    (tr0 : List Eff) (h1 : tr0.countP isLlmCall = 0)
    (h2 : tr0.any isEmbedCall = false) :
    (∃ b' audio ptext status tr1,
      frameEq b' block ∧ b'.ai_tags = block.ai_tags ∧ b'.embedding = block.embedding ∧
      tr1.countP isLlmCall = 0 ∧ tr1.any isEmbedCall = false ∧
      planB env db block tr0 = processRest env db b' audio ptext status tr1) ∨
    ((planB env db block tr0).database = db ∧
      (planB env db block tr0).trace.countP isLlmCall = 0 ∧
      (planB env db block tr0).trace.any isEmbedCall = false ∧
      frameEq (planB env db block tr0).block block ∧
      (planB env db block tr0).block.ai_tags = block.ai_tags ∧
      (planB env db block tr0).block.embedding = block.embedding) := by
  cases hd : (downloadYoutubeAudio env block.raw_content).1 with
  | none =>
      right
      simp [planB, hd, frameEq, h1, h2, isLlmCall, isEmbedCall]
  | some mp3_path =>
      cases hu : uploadAudio env (Sum.inl mp3_path) with
      | none =>
          right
          simp [planB, hd, hu, frameEq, h1, h2, isLlmCall, isEmbedCall]
      | some a =>
          left
          refine ⟨{ block with processed_content := some "⚠️ 正在下载视频音频，这可能需要 1-2 分钟，请耐心等待..." },
            some a, block.raw_content, "(基于AI听写 - Plan B)",
            (tr0 ++ [Eff.download block.raw_content]) ++ [Eff.upload],
            ?_, rfl, rfl, ?_, ?_, ?_⟩
          · simp [frameEq]
          · simp [h1, isLlmCall]
          · simp [h2, isEmbedCall]
          · simp [planB, hd, hu]

/-- Branch analysis of `process_block`'s input-resolution phase: either the
run reaches the generation step (it continues as `processRest` on a block
whose pipeline-immutable fields, `ai_tags` and `embedding` are untouched,
with a prefix trace free of generation/embedding calls), or it early-returns
with the corpus unchanged, no generation/embedding call, `ai_tags` and
`embedding` untouched, and only `processed_content` rewritten. -/
lemma process_block_master (env : Env) (db : List SmartBlock)
    (block : SmartBlock) (fb : Option String) :
    (∃ b' audio ptext status tr0,
      frameEq b' block ∧ b'.ai_tags = block.ai_tags ∧ b'.embedding = block.embedding ∧
      tr0.countP isLlmCall = 0 ∧ tr0.any isEmbedCall = false ∧
      process_block env db block fb = processRest env db b' audio ptext status tr0) ∨
    ((process_block env db block fb).database = db ∧
      (process_block env db block fb).trace.countP isLlmCall = 0 ∧
      (process_block env db block fb).trace.any isEmbedCall = false ∧
      frameEq (process_block env db block fb).block block ∧
      (process_block env db block fb).block.ai_tags = block.ai_tags ∧
      (process_block env db block fb).block.embedding = block.embedding) := by
  cases fb with
  | some bytes =>
      cases hu : uploadAudio env (Sum.inr bytes) with
      | none =>
          right
          simp [process_block, hu, frameEq, isLlmCall, isEmbedCall, List.countP, List.countP.go]
      | some a =>
          left
          refine ⟨block, some a, block.raw_content, "", [Eff.upload],
            frameEq_refl block, rfl, rfl, ?_, ?_, ?_⟩
          · simp [isLlmCall, List.countP, List.countP.go]
          · simp [isEmbedCall]
          · simp [process_block, hu]
  | none =>
      by_cases hv : block.source_type = "video_snippet" ∧
          (containsSub block.raw_content "youtube.com" = true ∨
           containsSub block.raw_content "youtu.be" = true)
      · rw [process_block, if_pos hv]
        cases ht : (getYoutubeTranscript env block.raw_content).1 with
        | some t =>
            simp only [ht]
            by_cases htne : t ≠ ""
            · rw [if_pos htne]
              left
              exact ⟨block, none, t, "(基于CC字幕)", [Eff.transcript block.raw_content],
                frameEq_refl block, rfl, rfl,
                by simp [isLlmCall, List.countP, List.countP.go],
                by simp [isEmbedCall], rfl⟩
            · rw [if_neg htne]
              exact planB_master env db block [Eff.transcript block.raw_content]
                (by simp [isLlmCall, List.countP, List.countP.go]) (by simp [isEmbedCall])
        | none =>
            simp only [ht]
            exact planB_master env db block [Eff.transcript block.raw_content]
              (by simp [isLlmCall, List.countP, List.countP.go]) (by simp [isEmbedCall])
      · rw [process_block, if_neg hv]
        left
        exact ⟨block, none, block.raw_content, "", [],
          frameEq_refl block, rfl, rfl, rfl, rfl, rfl⟩

/-- C1 (counterexample): with a generation success and a failing embedding
service, `process_block` still appends the block — the resulting corpus
consists of exactly one block and its embedding is empty, so the claim
"every block in the corpus has a non-empty embedding" is false. -/
theorem C1_counterexample :
    (process_block envBase [] articleBlock none).database.length = 1 ∧
    (process_block envBase [] articleBlock none).database.map SmartBlock.embedding = [[]] :=
  ⟨rfl, rfl⟩

/-- C1 (amended): a processed block is appended to the corpus (at most
once, at the end) only if its `processed_content` indicates success —
nonempty and free of the substring "Error".  The embedding is NOT
consulted: a block whose embedding request failed is appended all the
same, with `embedding = []`. -/
theorem C1_commit_requires_success_only (env : Env) (db : List SmartBlock)
    (block : SmartBlock) (fb : Option String) :
    ((process_block env db block fb).database = db ∨
      (process_block env db block fb).database =
        db ++ [(process_block env db block fb).block]) ∧
    ((process_block env db block fb).database =
        db ++ [(process_block env db block fb).block] →
      ∃ s, (process_block env db block fb).block.processed_content = some s ∧
        s ≠ "" ∧ containsSub s "Error" = false) := by
  rcases process_block_master env db block fb with
    ⟨b', audio, ptext, status, tr0, _, _, _, _, _, heq⟩ | ⟨hdb, _, _, _, _, _⟩
  · rw [heq]
    rcases processRest_cases env db b' audio ptext status tr0 with ⟨hc, he⟩ | ⟨hc, he⟩
    · rw [he]
      refine ⟨Or.inr rfl, fun _ => ?_⟩
      refine ⟨storedContent env b' audio ptext status, ?_,
        storedContent_ne_empty env b' audio ptext status, hc⟩
      simp [successBlock]
    · rw [he]
      refine ⟨Or.inl rfl, fun hcontra => ?_⟩
      exact absurd hcontra (self_ne_append_singleton db _)
  · refine ⟨Or.inl hdb, fun hcontra => ?_⟩
    rw [hdb] at hcontra
    exact absurd hcontra (self_ne_append_singleton db _)

/-- C1 (witness): a concrete run in which the block is appended, with its
stored content nonempty and "Error"-free. -/
theorem C1_commit_requires_success_only_witness :
    ∃ s, (process_block envOk [] articleBlock none).block.processed_content = some s ∧
      s ≠ "" ∧ containsSub s "Error" = false :=
  (C1_commit_requires_success_only envOk [] articleBlock none).2 (by rfl)

/-- C2 (counterexample): on a run whose generation response contains no
delimiter token of any kind, the pipeline issues TWO generation requests
(not one), and `ai_tags` ends up as the sentinel, not empty — the code
performs a separate tagging call rather than one combined request. -/
theorem C2_counterexample :
    (process_block envBase [] articleBlock none).trace.countP isLlmCall = 2 ∧
    (process_block envBase [] articleBlock none).block.ai_tags = tagErrorSentinel ∧
    tagErrorSentinel ≠ Json.arr [] :=
  ⟨rfl, rfl, by simp [tagErrorSentinel]⟩

/-- C2 (amended): the pipeline issues two generation requests — the note
transformation and a separate tag-extraction call — whenever a block is
committed to the corpus, and at most one generation request when it is
not. -/
theorem C2_two_generation_requests (env : Env) (db : List SmartBlock)
    (block : SmartBlock) (fb : Option String) :
    ((process_block env db block fb).database =
        db ++ [(process_block env db block fb).block] →
      (process_block env db block fb).trace.countP isLlmCall = 2) ∧
    ((process_block env db block fb).database = db →
      (process_block env db block fb).trace.countP isLlmCall ≤ 1) := by
  rcases process_block_master env db block fb with
    ⟨b', audio, ptext, status, tr0, _, _, _, hcnt, _, heq⟩ | ⟨hdb, hcnt, _, _, _, _⟩
  · rw [heq]
    rcases processRest_cases env db b' audio ptext status tr0 with ⟨hc, he⟩ | ⟨hc, he⟩
    · rw [he]
      constructor
      · intro _
        simp [List.countP_append, hcnt, isLlmCall]
      · intro hcontra
        exact absurd hcontra.symm (self_ne_append_singleton db _)
    · rw [he]
      constructor
      · intro hcontra
        exact absurd hcontra (self_ne_append_singleton db _)
      · intro _
        simp [List.countP_append, hcnt, isLlmCall]
  · constructor
    · intro hcontra
      rw [hdb] at hcontra
      exact absurd hcontra (self_ne_append_singleton db _)
    · intro _
      rw [hcnt]
      omega

/-- C2 (witness): a concrete committed run with exactly two generation
requests. -/
theorem C2_two_generation_requests_witness :
    (process_block envOk [] articleBlock none).trace.countP isLlmCall = 2 :=
  (C2_two_generation_requests envOk [] articleBlock none).1 (by rfl)

/-- C5 (confirmed): for a `video_snippet` block whose transcript
acquisition fails outright — the caption fetch returns no transcript and
the audio-download fallback also fails — `process_block` stores an error
string embedding the underlying download failure, returns immediately
(the trace stops at the transcript and download attempts: no generation,
no embedding), the corpus is unchanged, and `ai_tags` is untouched. -/
theorem C5_transcript_failure (env : Env) (db : List SmartBlock)
    (block : SmartBlock) (dlerr : String)
    (hsrc : block.source_type = "video_snippet")
    (hurl : containsSub block.raw_content "youtube.com" = true ∨
      containsSub block.raw_content "youtu.be" = true)
    (htr : (getYoutubeTranscript env block.raw_content).1 = none)
    (hdl : downloadYoutubeAudio env block.raw_content = (none, some dlerr)) :
    (process_block env db block none).block.processed_content =
      some ("❌ 字幕抓取失败，且音频下载也失败: " ++ dlerr) ∧
    (process_block env db block none).database = db ∧
    (process_block env db block none).block.ai_tags = block.ai_tags ∧
    (process_block env db block none).trace =
      [Eff.transcript block.raw_content, Eff.download block.raw_content] := by
  have hpb : process_block env db block none =
      planB env db block [Eff.transcript block.raw_content] := by
    simp only [process_block]
    rw [if_pos ⟨hsrc, hurl⟩]
    simp only [htr]
  rw [hpb, planB]
  simp only [hdl]
  simp

/-- C5 (witness): the concrete failing YouTube run, with the download
error embedded in the stored content. -/
theorem C5_transcript_failure_witness :
    (process_block envBase [] videoBlock none).block.processed_content =
      some ("❌ 字幕抓取失败，且音频下载也失败: " ++ "❌ 音频下载失败: network down") ∧
    (process_block envBase [] videoBlock none).database = [] ∧
    (process_block envBase [] videoBlock none).block.ai_tags = videoBlock.ai_tags ∧
    (process_block envBase [] videoBlock none).trace =
      [Eff.transcript videoBlock.raw_content, Eff.download videoBlock.raw_content] :=
  C5_transcript_failure envBase [] videoBlock "❌ 音频下载失败: network down"
    rfl (Or.inr rfl) rfl rfl

/-- C6 (counterexample): the tag response "42" is not a JSON array of
strings, yet `json.loads` parses it without raising, so `ai_tags` is set
to the JSON number 42 — not the sentinel — and the block is still
committed.  The sentinel is reserved for parse exceptions only. -/
theorem C6_counterexample :
    (process_block envC6 [] articleBlock none).block.ai_tags = Json.num 42 ∧
    Json.num 42 ≠ tagErrorSentinel ∧
    (process_block envC6 [] articleBlock none).database.length = 1 :=
  ⟨rfl, by simp [tagErrorSentinel], rfl⟩

/-- C6 (amended): on every committed run, the note body stored in
`processed_content` is kept; `ai_tags` becomes the sentinel exactly when
`json.loads` raises on the cleaned tag response, and becomes the parsed
JSON value (whatever its shape) when parsing succeeds; the embedding step
still runs either way. -/
theorem C6_tag_parse_failure (env : Env) (db : List SmartBlock)
    (block : SmartBlock) (fb : Option String)
    (happend : (process_block env db block fb).database =
      db ++ [(process_block env db block fb).block]) :
    ∃ pc, (process_block env db block fb).block.processed_content = some pc ∧
      (env.jsonLoads (cleanedTagResponse env pc) = none →
        (process_block env db block fb).block.ai_tags = tagErrorSentinel) ∧
      (∀ j, env.jsonLoads (cleanedTagResponse env pc) = some j →
        (process_block env db block fb).block.ai_tags = j) ∧
      (process_block env db block fb).block.embedding = getEmbedding env pc ∧
      (process_block env db block fb).trace.any isEmbedCall = true := by
  rcases process_block_master env db block fb with
    ⟨b', audio, ptext, status, tr0, _, _, _, _, _, heq⟩ | ⟨hdb, _, _, _, _, _⟩
  · rw [heq] at happend ⊢
    rcases processRest_cases env db b' audio ptext status tr0 with ⟨hc, he⟩ | ⟨hc, he⟩
    · rw [he]
      refine ⟨storedContent env b' audio ptext status, by simp [successBlock], ?_, ?_, ?_, ?_⟩
      · intro hj
        simp [successBlock, tagsFor, hj]
      · intro j hj
        simp [successBlock, tagsFor, hj]
      · simp [successBlock]
      · simp [isEmbedCall]
    · rw [he] at happend
      exact absurd happend (self_ne_append_singleton db _)
  · rw [hdb] at happend
    exact absurd happend (self_ne_append_singleton db _)

/-- C6 (witness): a concrete committed run whose tag response fails JSON
parsing, exercising the sentinel branch of the amended statement. -/
theorem C6_tag_parse_failure_witness :
    ∃ pc, (process_block envOk [] articleBlock none).block.processed_content = some pc ∧
      (envOk.jsonLoads (cleanedTagResponse envOk pc) = none →
        (process_block envOk [] articleBlock none).block.ai_tags = tagErrorSentinel) ∧
      (∀ j, envOk.jsonLoads (cleanedTagResponse envOk pc) = some j →
        (process_block envOk [] articleBlock none).block.ai_tags = j) ∧
      (process_block envOk [] articleBlock none).block.embedding = getEmbedding envOk pc ∧
      (process_block envOk [] articleBlock none).trace.any isEmbedCall = true :=
  C6_tag_parse_failure envOk [] articleBlock none (by rfl)

/-- C9 (confirmed): `process_block` never changes `id`, `created_at`,
`source_type`, `metadata`, `user_tags`, or `raw_content`; only
`processed_content`, `ai_tags` and `embedding` are ever written. -/
theorem C9_frame (env : Env) (db : List SmartBlock) (block : SmartBlock)
    (fb : Option String) :
    (process_block env db block fb).block.id = block.id ∧
    (process_block env db block fb).block.created_at = block.created_at ∧
    (process_block env db block fb).block.source_type = block.source_type ∧
    (process_block env db block fb).block.metadata = block.metadata ∧
    (process_block env db block fb).block.user_tags = block.user_tags ∧
    (process_block env db block fb).block.raw_content = block.raw_content := by
  rcases process_block_master env db block fb with
    ⟨b', audio, ptext, status, tr0, hf, _, _, _, _, heq⟩ | ⟨_, _, _, hf, _, _⟩
  · rw [heq]
    obtain ⟨h1, h2, h3, h4, h5, h6⟩ := hf
    rcases processRest_cases env db b' audio ptext status tr0 with ⟨_, he⟩ | ⟨_, he⟩
    · rw [he]
      simp [successBlock, h1, h2, h3, h4, h5, h6]
    · rw [he]
      simp [h1, h2, h3, h4, h5, h6]
  · obtain ⟨h1, h2, h3, h4, h5, h6⟩ := hf
    exact ⟨h1, h2, h3, h5, h6, h4⟩

/-- C10 (confirmed): on every run that reaches the generation step (at
least one generation request in the trace), the block is committed iff the
substring "Error" does not occur in the stored `processed_content`; and
whenever "Error" does occur there, `ai_tags` and `embedding` are left
untouched, no embedding request is made, and the corpus is unchanged —
even when the "Error" text is legitimate note content. -/
theorem C10_error_substring_gate (env : Env) (db : List SmartBlock)
    (block : SmartBlock) (fb : Option String)
    (hreach : (process_block env db block fb).trace.any isLlmCall = true) :
    ((process_block env db block fb).database =
        db ++ [(process_block env db block fb).block] ↔
      containsSub ((process_block env db block fb).block.processed_content.getD "")
        "Error" = false) ∧
    (containsSub ((process_block env db block fb).block.processed_content.getD "")
        "Error" = true →
      (process_block env db block fb).block.ai_tags = block.ai_tags ∧
      (process_block env db block fb).block.embedding = block.embedding ∧
      (process_block env db block fb).database = db ∧
      (process_block env db block fb).trace.any isEmbedCall = false) := by
  rcases process_block_master env db block fb with
    ⟨b', audio, ptext, status, tr0, _, htags, hemb, hcnt, hany, heq⟩ |
    ⟨_, hcnt, _, _, _, _⟩
  · rw [heq] at hreach ⊢
    rcases processRest_cases env db b' audio ptext status tr0 with ⟨hc, he⟩ | ⟨hc, he⟩
    · rw [he]
      constructor
      · refine iff_of_true rfl ?_
        simpa [successBlock] using hc
      · intro hcontra
        simp only [successBlock, Option.getD_some] at hcontra
        rw [hc] at hcontra
        exact absurd hcontra (by simp)
    · rw [he]
      constructor
      · simp only [Option.getD_some]
        refine iff_of_false (self_ne_append_singleton db _) ?_
        rw [hc]
        simp
      · intro _
        refine ⟨htags, hemb, rfl, ?_⟩
        simp [List.any_append, hany, isEmbedCall]
  · rw [List.any_eq_true] at hreach
    obtain ⟨x, hx, hpx⟩ := hreach
    have := List.countP_eq_zero.mp hcnt x hx
    exact absurd hpx this

/-- C10 (witness): a generation response legitimately containing "Error"
causes the block to be treated as failed — tags and embedding untouched,
no embedding request, corpus unchanged. -/
theorem C10_error_substring_gate_witness :
    (process_block envErr [] articleBlock none).block.ai_tags = articleBlock.ai_tags ∧
    (process_block envErr [] articleBlock none).block.embedding = articleBlock.embedding ∧
    (process_block envErr [] articleBlock none).database = [] ∧
    (process_block envErr [] articleBlock none).trace.any isEmbedCall = false :=
  (C10_error_substring_gate envErr [] articleBlock none (by rfl)).2 (by rfl)

/-- C4 (confirmed): when the target block's embedding is empty, or the
corpus is empty, `find_related` returns the empty sequence (it is a total
function — no error is possible). -/
theorem C4_empty_inputs (sim : List ℚ → List ℚ → ℚ) (db : List SmartBlock)
    (t : SmartBlock) (k : Nat) (h : t.embedding = [] ∨ db = []) :
    find_related sim db t k = [] := by
  rcases h with h | h <;> simp [find_related, h]

/-- C4 (witness): concrete empty-embedding and empty-corpus runs. -/
theorem C4_empty_inputs_witness :
    find_related simOne [blockA] emptyTarget 3 = [] ∧
    find_related simOne [] blockT 3 = [] :=
  ⟨C4_empty_inputs simOne [blockA] emptyTarget 3 (Or.inl rfl),
   C4_empty_inputs simOne [] blockT 3 (Or.inr rfl)⟩

/-- C7 (counterexample): for a block whose metadata carries
`start_min = 5` / `end_min = 6`, the fetched transcript still contains the
segment starting at offset 0 (below the start bound), and that full
transcript is what is sent to the generation service. -/
theorem C7_counterexample :
    blockC7.metadata.getD 1 ("", MetaVal.num 0) = ("start_min", MetaVal.num 5) ∧
    (segsC7.map Segment.start).getD 0 1 = 0 ∧
    (getYoutubeTranscript envC7 blockC7.raw_content).1 =
      some "[自动抓取的字幕] SEG_EARLY SEG_LATE" ∧
    (process_block envC7 [] blockC7 none).trace.getD 1 Eff.upload =
      Eff.llm "[自动抓取的字幕] SEG_EARLY SEG_LATE" none :=
  ⟨rfl, rfl, rfl, rfl⟩

/-- C7 (amended): the transcript fetch never reads the metadata bounds —
whenever the video id parses and the transcript service succeeds, the
result concatenates the text of ALL segments, whatever their start
offsets. -/
theorem C7_bounds_ignored (env : Env) (url : String) (segs : List Segment)
    (hapi : env.hasTranscriptApi = true)
    (hvid : parsedVideoId url ≠ "")
    (hts : env.getTranscript (parsedVideoId url) = Except.ok segs) :
    getYoutubeTranscript env url =
      (some ("[自动抓取的字幕] " ++ pyJoin " " (segs.map Segment.text)), none) := by
  rw [getYoutubeTranscript, hapi]
  simp only [Bool.not_true, Bool.false_eq_true, if_false]
  rw [if_neg hvid, hts]

/-- C7 (witness): the concrete two-segment transcript, fetched whole. -/
theorem C7_bounds_ignored_witness :
    getYoutubeTranscript envC7 blockC7.raw_content =
      (some ("[自动抓取的字幕] " ++ pyJoin " " (segsC7.map Segment.text)), none) :=
  C7_bounds_ignored envC7 blockC7.raw_content segsC7 rfl (by decide) rfl

lemma mem_argsort_pairs {sims : List ℚ} {p : Nat × ℚ}
    (hp : p ∈ List.insertionSort simLe sims.enum) :
    p.1 < sims.length ∧ sims.getD p.1 0 = p.2 := by
  have hmem : p ∈ sims.enum := (List.perm_insertionSort simLe sims.enum).mem_iff.mp hp
  obtain ⟨i, x⟩ := p
  obtain ⟨hlt, hx⟩ := List.mem_enum hmem
  exact ⟨hlt, by rw [List.getD_eq_getElem sims 0 hlt, ← hx]⟩

lemma sliceLastPy_sublist {α : Type} (l : List α) (k : Nat) :
    (sliceLastPy l k).Sublist l := by
  unfold sliceLastPy
  split
  · exact List.Sublist.refl l
  · exact List.drop_sublist _ l

lemma sliceLastPy_map {α β : Type} (f : α → β) (l : List α) (k : Nat) :
    sliceLastPy (l.map f) k = (sliceLastPy l k).map f := by
  unfold sliceLastPy
  split <;> simp [List.map_drop]

lemma sliceLastPy_length_le {α : Type} (l : List α) (k : Nat) (hk : 1 ≤ k) :
    (sliceLastPy l k).length ≤ k := by
  unfold sliceLastPy
  rw [if_neg (by omega)]
  simp only [List.length_drop]
  omega

lemma mem_topPairs {sims : List ℚ} {k : Nat} {p : Nat × ℚ}
    (hp : p ∈ topPairs sims k) : p.1 < sims.length ∧ sims.getD p.1 0 = p.2 := by
  rw [topPairs, List.mem_reverse] at hp
  exact mem_argsort_pairs ((sliceLastPy_sublist _ k).subset hp)

lemma topPairs_pairwise_desc (sims : List ℚ) (k : Nat) :
    (topPairs sims k).Pairwise (fun a b : Nat × ℚ => b.2 ≤ a.2) := by
  have hs : (List.insertionSort simLe sims.enum).Pairwise simLe :=
    List.sorted_insertionSort simLe sims.enum
  have hsl : (sliceLastPy (List.insertionSort simLe sims.enum) k).Pairwise simLe :=
    hs.sublist (sliceLastPy_sublist _ k)
  rw [topPairs]
  exact List.pairwise_reverse.mpr hsl

lemma length_filterMap_if {α β : Type} (q : α → Prop) [DecidablePred q]
    (f : α → β) :
    ∀ l : List α,
      (l.filterMap fun a => if q a then some (f a) else none).length =
        l.countP (fun a => decide (q a))
  | [] => rfl
  | x :: xs => by
    by_cases hx : q x <;>
      simp [List.filterMap_cons, List.countP_cons, hx, length_filterMap_if q f xs]

/-- On the main path (nonempty target embedding, corpus and candidate
set), `find_related` is the threshold filter applied to the top-k
index/score pairs. -/
lemma find_related_main (sim : List ℚ → List ℚ → ℚ) (db : List SmartBlock)
    (t : SmartBlock) (k : Nat)
    (h1 : t.embedding.isEmpty = false) (h2 : db.isEmpty = false)
    (h3 : ((db.filter (candOk t)).map SmartBlock.embedding).isEmpty = false) :
    find_related sim db t k =
      (topPairs (simsOf sim db t) k).filterMap (fun p =>
        if simThreshold < p.2 then
          some ((db.filter (candOk t)).getD p.1 dfltBlock, p.2)
        else none) := by
  simp only [find_related, h1, h2, h3, Bool.or_self, Bool.false_eq_true, if_false]
  rw [show ((db.filter (candOk t)).map SmartBlock.embedding).map
      (fun e => sim t.embedding e) = simsOf sim db t from rfl]
  have key : (sliceLastPy (argsort (simsOf sim db t)) k).reverse =
      (topPairs (simsOf sim db t) k).map Prod.fst := by
    rw [argsort, topPairs, sliceLastPy_map, List.map_reverse]
  rw [key, List.filterMap_map]
  refine List.filterMap_congr (fun p hp => ?_)
  obtain ⟨hlt, hgd⟩ := mem_topPairs hp
  simp only [Function.comp_apply]
  rw [hgd]

lemma topKScores_nil (k : Nat) : topKScores [] k = [] := by
  unfold topKScores sliceLastPy
  split <;> simp

/-- C3 (amended): for every positive `top_k`, `find_related` returns a
sequence sorted by descending score, in which every score exceeds the 0.3
threshold, of length at most `top_k`, never containing the target itself
(excluded by id); and (for a target with an embedding) its length equals
the number of scores above the threshold among the `top_k` best scores —
the cutoff is applied after truncation to top-k, not before. -/
theorem C3_ranking (sim : List ℚ → List ℚ → ℚ) (db : List SmartBlock)
    (t : SmartBlock) (k : Nat) (hk : 1 ≤ k) :
    (find_related sim db t k).Pairwise (fun a b : SmartBlock × ℚ => b.2 ≤ a.2) ∧
    (∀ p ∈ find_related sim db t k, simThreshold < p.2) ∧
    (find_related sim db t k).length ≤ k ∧
    (∀ p ∈ find_related sim db t k, p.1.id ≠ t.id) ∧
    (t.embedding ≠ [] →
      (find_related sim db t k).length =
        (topKScores (simsOf sim db t) k).countP (fun s => decide (simThreshold < s))) := by
  by_cases h1 : t.embedding.isEmpty
  · have hres : find_related sim db t k = [] := by simp [find_related, h1]
    rw [hres]
    exact ⟨List.Pairwise.nil, by simp, by simp, by simp,
      fun hne => absurd (List.isEmpty_iff.mp h1) hne⟩
  · by_cases h2 : db.isEmpty
    · have hdb : db = [] := List.isEmpty_iff.mp h2
      have hres : find_related sim db t k = [] := by simp [find_related, h2]
      rw [hres]
      refine ⟨List.Pairwise.nil, by simp, by simp, by simp, fun _ => ?_⟩
      rw [hdb]
      simp only [simsOf, List.filter_nil, List.map_nil, topKScores_nil,
        List.countP_nil, List.length_nil]
    · by_cases h3 : ((db.filter (candOk t)).map SmartBlock.embedding).isEmpty
      · have hfil : db.filter (candOk t) = [] := by
          have hmap := List.isEmpty_iff.mp h3
          exact List.map_eq_nil_iff.mp hmap
        have hres : find_related sim db t k = [] := by
          simp only [find_related]
          rw [if_neg (by simp [h1, h2])]
          simp [h3]
        rw [hres]
        refine ⟨List.Pairwise.nil, by simp, by simp, by simp, fun _ => ?_⟩
        rw [show simsOf sim db t = [] from by simp [simsOf, hfil]]
        simp [topKScores_nil]
      · have h1' := Bool.of_not_eq_true h1
        have h2' := Bool.of_not_eq_true h2
        have h3' := Bool.of_not_eq_true h3
        rw [find_related_main sim db t k h1' h2' h3']
        have hlen2 : ((db.filter (candOk t)).map SmartBlock.embedding).length =
            (db.filter (candOk t)).length := List.length_map _ _
        have hlensims : (simsOf sim db t).length = (db.filter (candOk t)).length := by
          rw [simsOf, List.length_map, hlen2]
        refine ⟨?_, ?_, ?_, ?_, fun _ => ?_⟩
        · refine List.pairwise_filterMap.mpr ((topPairs_pairwise_desc _ k).imp ?_)
          intro a a' hle b hb b' hb'
          by_cases ha : simThreshold < a.2 <;> by_cases ha' : simThreshold < a'.2 <;>
            simp [ha, ha', Option.mem_def] at hb hb'
          subst hb hb'
          exact hle
        · intro p hp
          rw [List.mem_filterMap] at hp
          obtain ⟨a, _, hfa⟩ := hp
          by_cases ha : simThreshold < a.2 <;> simp [ha] at hfa
          rw [← hfa]
          exact ha
        · refine le_trans (List.length_filterMap_le _ _) ?_
          rw [topPairs, List.length_reverse]
          exact sliceLastPy_length_le _ k hk
        · intro p hp
          rw [List.mem_filterMap] at hp
          obtain ⟨a, ha, hfa⟩ := hp
          by_cases hth : simThreshold < a.2 <;> simp [hth] at hfa
          obtain ⟨hlt, _⟩ := mem_topPairs ha
          rw [hlensims] at hlt
          have hmem : (db.filter (candOk t)).getD a.1 dfltBlock ∈ db.filter (candOk t) := by
            rw [List.getD_eq_getElem _ _ hlt]
            exact List.getElem_mem hlt
          have hcand : candOk t ((db.filter (candOk t)).getD a.1 dfltBlock) = true :=
            List.of_mem_filter hmem
          rw [candOk, Bool.and_eq_true] at hcand
          have hne := hcand.1
          rw [← hfa]
          simpa using hne
        · rw [length_filterMap_if (fun p : Nat × ℚ => simThreshold < p.2)
            (fun p => ((db.filter (candOk t)).getD p.1 dfltBlock, p.2))]
          rw [show topKScores (simsOf sim db t) k =
            (topPairs (simsOf sim db t) k).map Prod.snd from rfl]
          rw [List.countP_map]
          rfl

/-- C3 (counterexample): at `top_k = 0` the Python slice
`argsort()[-0:]` selects the WHOLE index array, so with two qualifying
candidates `find_related` returns 2 results — more than `top_k`. -/
theorem C3_counterexample :
    (find_related simOne [blockA, blockB] blockT 0).length = 2 ∧
    ¬ (find_related simOne [blockA, blockB] blockT 0).length ≤ 0 :=
  ⟨rfl, by decide⟩

/-- C3 (witness): the amended ranking properties at a concrete corpus and
`top_k = 2`. -/
theorem C3_ranking_witness :
    (find_related simOne [blockA, blockB] blockT 2).Pairwise
      (fun a b : SmartBlock × ℚ => b.2 ≤ a.2) ∧
    (∀ p ∈ find_related simOne [blockA, blockB] blockT 2, simThreshold < p.2) ∧
    (find_related simOne [blockA, blockB] blockT 2).length ≤ 2 ∧
    (∀ p ∈ find_related simOne [blockA, blockB] blockT 2, p.1.id ≠ blockT.id) ∧
    (blockT.embedding ≠ [] →
      (find_related simOne [blockA, blockB] blockT 2).length =
        (topKScores (simsOf simOne [blockA, blockB] blockT) 2).countP
          (fun s => decide (simThreshold < s))) :=
  C3_ranking simOne [blockA, blockB] blockT 2 (by decide)

/-- C8 (counterexample): blocks A (inserted first) and B (inserted
second) tie exactly, yet `find_related` returns B before A — the opposite
of first-seen-first. -/
theorem C8_counterexample :
    simOne blockT.embedding blockA.embedding =
      simOne blockT.embedding blockB.embedding ∧
    (find_related simOne [blockA, blockB] blockT 3).map (fun p => p.1.id) =
      ["B", "A"] :=
  ⟨rfl, rfl⟩

lemma sublist_pair_of_mem {α : Type} {l : List α} {a b : α}
    (ha : a ∈ l) (hb : b ∈ l) (hne : a ≠ b) :
    List.Sublist [a, b] l ∨ List.Sublist [b, a] l := by
  induction l with
  | nil => cases ha
  | cons x xs ih =>
    rcases List.mem_cons.mp ha with rfl | ha'
    · have hb' : b ∈ xs := by
        rcases List.mem_cons.mp hb with h | h
        · exact absurd h.symm hne
        · exact h
      exact Or.inl (List.cons_sublist_cons.mpr (List.singleton_sublist.mpr hb'))
    · rcases List.mem_cons.mp hb with rfl | hb'
      · exact Or.inr (List.cons_sublist_cons.mpr (List.singleton_sublist.mpr ha'))
      · rcases ih ha' hb' with h | h
        · exact Or.inl (h.cons x)
        · exact Or.inr (h.cons x)

/-- Stability of one `orderedInsert` step: inserting an element whose
index is below every index already present keeps the list ordered by
(score, then index). -/
lemma orderedInsert_stable (x : Nat × ℚ) :
    ∀ {l : List (Nat × ℚ)}, l.Pairwise rankBefore → (∀ b ∈ l, x.1 < b.1) →
      (List.orderedInsert simLe x l).Pairwise rankBefore := by
  intro l
  induction l with
  | nil =>
      intro _ _
      simp [List.orderedInsert]
  | cons b l' ih =>
      intro hl hx
      rw [List.orderedInsert]
      by_cases hle : simLe x b
      · rw [if_pos hle]
        refine List.Pairwise.cons ?_ hl
        intro c hc
        have hxc : x.1 < c.1 := hx c hc
        have hx2c : x.2 ≤ c.2 := by
          rcases List.mem_cons.mp hc with rfl | hc'
          · exact hle
          · have hbc := (List.pairwise_cons.mp hl).1 c hc'
            rcases hbc with h | h
            · exact le_trans hle (le_of_lt h)
            · exact le_trans hle (le_of_eq h.1)
        rcases lt_or_eq_of_le hx2c with h | h
        · exact Or.inl h
        · exact Or.inr ⟨h, hxc⟩
      · rw [if_neg hle]
        have hl' := (List.pairwise_cons.mp hl).2
        have hbl' := (List.pairwise_cons.mp hl).1
        refine List.Pairwise.cons ?_
          (ih hl' (fun c hc => hx c (List.mem_cons_of_mem b hc)))
        intro c hc
        have hc' : c ∈ x :: l' := (List.perm_orderedInsert simLe x l').mem_iff.mp hc
        rcases List.mem_cons.mp hc' with rfl | hc''
        · exact Or.inl (not_le.mp (by simpa [simLe] using hle))
        · exact hbl' c hc''

/-- Stability of `insertionSort simLe` on a list with strictly increasing
indices: equal scores keep their original index order, so the sorted list
is ordered by (score, then index). -/
lemma insertionSort_stable :
    ∀ {l : List (Nat × ℚ)}, l.Pairwise (fun p q : Nat × ℚ => p.1 < q.1) →
      (List.insertionSort simLe l).Pairwise rankBefore
  | [], _ => by simp [List.insertionSort]
  | x :: xs, h => by
    rw [List.insertionSort]
    have hx := (List.pairwise_cons.mp h).1
    have hxs := (List.pairwise_cons.mp h).2
    refine orderedInsert_stable x (insertionSort_stable hxs) ?_
    intro b hb
    exact hx b ((List.mem_insertionSort simLe).mp hb)

lemma enum_pairwise_fst_lt (l : List ℚ) :
    l.enum.Pairwise (fun p q : Nat × ℚ => p.1 < q.1) := by
  have h := List.pairwise_lt_range l.length
  rw [← List.enum_map_fst] at h
  exact List.pairwise_map.mp h

/-- The sorted index/score pairs are ordered by score, and by index among
equal scores. -/
lemma argsort_sorted_stable (sims : List ℚ) :
    (List.insertionSort simLe sims.enum).Pairwise rankBefore :=
  insertionSort_stable (enum_pairwise_fst_lt sims)

lemma argsort_fst_nodup (sims : List ℚ) :
    ((List.insertionSort simLe sims.enum).map Prod.fst).Nodup := by
  have hperm : List.Perm ((List.insertionSort simLe sims.enum).map Prod.fst)
      (sims.enum.map Prod.fst) :=
    (List.perm_insertionSort simLe sims.enum).map Prod.fst
  rw [hperm.nodup_iff, List.enum_map_fst]
  exact List.nodup_range sims.length

lemma mem_sortedPairs_of_getD {sims : List ℚ} {i : Nat} {v : ℚ}
    (hi : i < sims.length) (hv : sims.getD i 0 = v) :
    (i, v) ∈ List.insertionSort simLe sims.enum := by
  have hgv : sims[i] = v := by
    rw [← hv, List.getD_eq_getElem sims 0 hi]
  rw [List.mem_insertionSort, List.mem_enum_iff_getElem?]
  show sims[i]? = some v
  rw [List.getElem?_eq_getElem hi, hgv]

/-- C8 (amended): within numpy's stable regime — `argsort` falls back to a
stable insertion sort for arrays of at most 16 elements — two candidates
with exactly equal similarity scores that both survive the top-k selection
come back in REVERSE insertion order: the later-inserted candidate (index
`j > i`) precedes the earlier one, both in the selected index list
`argsort()[-top_k:][::-1]` and in the returned sequence, because the
`[::-1]` reversal of an ascending stable sort inverts first-seen order
among ties.  (For larger candidate arrays numpy's default quicksort leaves
the tie order unspecified.) -/
theorem C8_ties_reverse_insertion (sim : List ℚ → List ℚ → ℚ)
    (db : List SmartBlock) (t : SmartBlock) (k i j : Nat) (v : ℚ)
    (_hsmall : (db.filter (candOk t)).length ≤ 16)
    (ht : t.embedding ≠ [])
    (hij : i < j) (hjlen : j < (simsOf sim db t).length)
    (hvi : (simsOf sim db t).getD i 0 = v)
    (hvj : (simsOf sim db t).getD j 0 = v)
    (hthr : simThreshold < v)
    (hi : i ∈ topIndices (simsOf sim db t) k)
    (hj : j ∈ topIndices (simsOf sim db t) k) :
    [j, i].Sublist (topIndices (simsOf sim db t) k) ∧
    [((db.filter (candOk t)).getD j dfltBlock, v),
     ((db.filter (candOk t)).getD i dfltBlock, v)].Sublist
      (find_related sim db t k) := by
  have h1' : t.embedding.isEmpty = false := by
    cases he : t.embedding.isEmpty
    · rfl
    · exact absurd (List.isEmpty_iff.mp he) ht
  have hlensims : (simsOf sim db t).length = (db.filter (candOk t)).length := by
    rw [simsOf, List.length_map, List.length_map]
  have hblocks_pos : 0 < (db.filter (candOk t)).length := by
    rw [← hlensims]
    omega
  have h2' : db.isEmpty = false := by
    cases hdb : db with
    | nil =>
        rw [hdb] at hblocks_pos
        simp at hblocks_pos
    | cons a l => rfl
  have h3' : ((db.filter (candOk t)).map SmartBlock.embedding).isEmpty = false := by
    cases hf : db.filter (candOk t) with
    | nil =>
        rw [hf] at hblocks_pos
        simp at hblocks_pos
    | cons a l => rfl
  have hilen : i < (simsOf sim db t).length := lt_trans hij hjlen
  have hstab := argsort_sorted_stable (simsOf sim db t)
  have hpi := mem_sortedPairs_of_getD hilen hvi
  have hpj := mem_sortedPairs_of_getD hjlen hvj
  have hne : ((i : Nat), v) ≠ ((j : Nat), v) := by
    intro h
    exact absurd (congrArg Prod.fst h) (Nat.ne_of_lt hij)
  have htop : topIndices (simsOf sim db t) k =
      ((sliceLastPy (List.insertionSort simLe (simsOf sim db t).enum) k).map
        Prod.fst).reverse := by
    rw [topIndices, argsort, sliceLastPy_map]
  have hinj := List.inj_on_of_nodup_map (argsort_fst_nodup (simsOf sim db t))
  have hiS : ((i : Nat), v) ∈
      sliceLastPy (List.insertionSort simLe (simsOf sim db t).enum) k := by
    rw [htop] at hi
    obtain ⟨p, hpS, hpfst⟩ := List.mem_map.mp (List.mem_reverse.mp hi)
    have hpsp := (sliceLastPy_sublist _ k).subset hpS
    have hpeq : p = ((i : Nat), v) := hinj hpsp hpi hpfst
    rw [hpeq] at hpS
    exact hpS
  have hjS : ((j : Nat), v) ∈
      sliceLastPy (List.insertionSort simLe (simsOf sim db t).enum) k := by
    rw [htop] at hj
    obtain ⟨p, hpS, hpfst⟩ := List.mem_map.mp (List.mem_reverse.mp hj)
    have hpsp := (sliceLastPy_sublist _ k).subset hpS
    have hpeq : p = ((j : Nat), v) := hinj hpsp hpj hpfst
    rw [hpeq] at hpS
    exact hpS
  have hSpair : (sliceLastPy (List.insertionSort simLe (simsOf sim db t).enum)
      k).Pairwise rankBefore :=
    hstab.sublist (sliceLastPy_sublist _ k)
  have hsub : List.Sublist [((i : Nat), v), ((j : Nat), v)]
      (sliceLastPy (List.insertionSort simLe (simsOf sim db t).enum) k) := by
    rcases sublist_pair_of_mem hiS hjS hne with h | h
    · exact h
    · have hrb := List.pairwise_iff_forall_sublist.mp hSpair h
      rcases hrb with hlt | hlex
      · exact absurd hlt (lt_irrefl v)
      · exact absurd hlex.2 (by omega)
  have hrev : List.Sublist [((j : Nat), v), ((i : Nat), v)]
      ((sliceLastPy (List.insertionSort simLe (simsOf sim db t).enum) k).reverse) := by
    simpa using hsub.reverse
  constructor
  · rw [htop]
    have hmap := hrev.map Prod.fst
    simpa [List.map_reverse] using hmap
  · rw [find_related_main sim db t k h1' h2' h3']
    have hfm := hrev.filterMap (fun p : Nat × ℚ =>
      if simThreshold < p.2 then
        some ((db.filter (candOk t)).getD p.1 dfltBlock, p.2)
      else none)
    rw [topPairs]
    simpa [List.filterMap_cons, hthr] using hfm

/-- C8 (witness): the amended reverse-tie-order law at the concrete tied
two-candidate corpus (blocks A then B, equal scores): index 1 (B, inserted
second) precedes index 0 (A, inserted first) in the selection and in the
result. -/
theorem C8_ties_reverse_insertion_witness :
    [1, 0].Sublist (topIndices (simsOf simOne [blockA, blockB] blockT) 2) ∧
    [((List.filter (candOk blockT) [blockA, blockB]).getD 1 dfltBlock, 1),
     ((List.filter (candOk blockT) [blockA, blockB]).getD 0 dfltBlock, 1)].Sublist
      (find_related simOne [blockA, blockB] blockT 2) :=
  C8_ties_reverse_insertion simOne [blockA, blockB] blockT 2 0 1 1
    (by decide) (by decide) (by decide) (by decide) (by decide) (by decide)
    (by decide) (by decide) (by decide)
